import Mathlib

/-!
Verification development for the discipline-bot scheduling and scoring core.

The Python sources are shallowly embedded:
* `PyDateTime` models `datetime.datetime` (year/month/day/hour/minute/second);
  ordinal and ISO-calendar arithmetic follow CPython's `datetime` module
  (`_ymd2ord`, `_isoweek1monday`, `isocalendar`, `weekday`).
* floats are modelled by `ℚ`; Python's `round(x, 2)` (round-half-to-even)
  is `pyRound2`.
* Python ints are `Int`; Python `//` and `%` on ints agree with `Int.ediv`
  and `Int.emod` for positive divisors, which is the only case exercised.
-/

namespace DisciplineBot

/-- Model of `datetime.datetime` (naive or fixed-tz; the timezone plays no
role in any embedded computation). -/
structure PyDateTime where
  year : Nat
  month : Nat
  day : Nat
  hour : Nat := 0
  minute : Nat := 0
  second : Nat := 0
deriving DecidableEq, Repr

/-- Model of `datetime.date`. -/
structure PyDate where
  year : Nat
  month : Nat
  day : Nat
deriving DecidableEq, Repr

/-- `datetime.date()` — the date part. -/
def PyDateTime.date (dt : PyDateTime) : PyDate :=
  ⟨dt.year, dt.month, dt.day⟩

/-- CPython `_is_leap`. -/
def isLeap (y : Nat) : Bool :=
  y % 4 == 0 && (y % 100 != 0 || y % 400 == 0)

/-- CPython `_days_before_year`: days before January 1st of `year`. -/
def daysBeforeYear (y : Nat) : Nat :=
  let p := y - 1
  365 * p + p / 4 - p / 100 + p / 400

/-- CPython `_DAYS_IN_MONTH` lookup (month 1..12). -/
def daysInMonth (y m : Nat) : Nat :=
  if m == 2 then (if isLeap y then 29 else 28)
  else if m == 4 || m == 6 || m == 9 || m == 11 then 30
  else 31

/-- CPython `_days_before_month`: days in `year` preceding month `m`. -/
def daysBeforeMonth (y m : Nat) : Nat :=
  match m with
  | 0 => 0
  | n + 1 => if n == 0 then 0 else daysBeforeMonth y n + daysInMonth y n

/-- CPython `_ymd2ord`: proleptic Gregorian ordinal (0001-01-01 is day 1). -/
def ymd2ord (y m d : Nat) : Nat :=
  daysBeforeYear y + daysBeforeMonth y m + d

/-- Ordinal of a `PyDate`. -/
def PyDate.ord (d : PyDate) : Nat := ymd2ord d.year d.month d.day

/-- `date.weekday()`: Monday = 0 .. Sunday = 6. -/
def PyDate.weekday (d : PyDate) : Nat := (d.ord + 6) % 7

/-- CPython `_isoweek1monday year`: ordinal of the Monday starting ISO week 1
of `year`. -/
def isoweek1monday (y : Nat) : Nat :=
  let firstday := ymd2ord y 1 1
  let firstweekday := (firstday + 6) % 7
  let week1monday := firstday - firstweekday
  if firstweekday > 3 then week1monday + 7 else week1monday

/-- CPython `date.isocalendar().week`.  CPython computes
`week = (today - week1monday) // 7` with floor division; the `week < 0`
branch is exactly the case `today < week1monday`, which is spelled out here
because the embedding uses `Nat` arithmetic (valid Python dates have
`year ≥ 1`, and for those this definition agrees with CPython). -/
def PyDate.isoweek (dt : PyDate) : Nat :=
  let today := dt.ord
  let week1monday := isoweek1monday dt.year
  if today < week1monday then
    (today - isoweek1monday (dt.year - 1)) / 7 + 1
  else
    let week := (today - week1monday) / 7
    if 52 ≤ week && isoweek1monday (dt.year + 1) ≤ today then 1
    else week + 1

/-- `datetime.isocalendar().week` of a `PyDateTime`. -/
def PyDateTime.isoweek (dt : PyDateTime) : Nat := dt.date.isoweek

/-- Total-second key of a `PyDateTime`; Python's lexicographic comparison of
(naive, same-tz) datetimes agrees with comparison of this key for valid
field ranges. -/
def PyDateTime.key (dt : PyDateTime) : Nat :=
  ((dt.date.ord * 24 + dt.hour) * 60 + dt.minute) * 60 + dt.second

/-- `datetime.__lt__`. -/
def dtLt (a b : PyDateTime) : Bool := a.key < b.key

/-- `date.__le__`. -/
def dLe (a b : PyDate) : Bool := a.ord ≤ b.ord

/-- `date + timedelta(days=1)`, by calendar rollover. -/
def PyDate.nextDay (d : PyDate) : PyDate :=
  if d.day < daysInMonth d.year d.month then ⟨d.year, d.month, d.day + 1⟩
  else if d.month < 12 then ⟨d.year, d.month + 1, 1⟩
  else ⟨d.year + 1, 1, 1⟩

/-- `datetime.combine(current, datetime.min.time(), tzinfo)` — midnight of a
date. -/
def PyDate.atMidnight (d : PyDate) : PyDateTime :=
  ⟨d.year, d.month, d.day, 0, 0, 0⟩

/-! ## Python string primitives

The Python string methods used by the sources (`str.lower`, `str.strip`,
`str.split(":")`, `int(...)` on digit strings, `str.startswith`,
`str.isdigit`) are embedded as structurally recursive functions over the
character list of a `String`, so that every concrete evaluation reduces in
the kernel. -/

/-- Python's default `str.strip` whitespace set (ASCII portion). -/
def isPySpace (c : Char) : Bool :=
  c == ' ' || c == '\t' || c == '\n' || c == '\r' || c == '\x0b' || c == '\x0c'

/-- `str.lower` (ASCII; the inputs in this codebase are ASCII). -/
def pyLower (s : String) : String :=
  String.mk (s.data.map Char.toLower)

/-- `str.strip()`. -/
def pyStrip (s : String) : String :=
  String.mk (((s.data.dropWhile isPySpace).reverse.dropWhile isPySpace).reverse)

/-- Helper for `str.split(sep)` with a one-character separator. -/
def splitCharAux (sep : Char) : List Char → List Char → List (List Char)
  | [], acc => [acc.reverse]
  | c :: rest, acc =>
    if c == sep then acc.reverse :: splitCharAux sep rest []
    else splitCharAux sep rest (c :: acc)

/-- `str.split(sep)` for a one-character separator. -/
def pySplit (s : String) (sep : Char) : List String :=
  (splitCharAux sep s.data []).map String.mk

/-- `str.isdigit()` (ASCII digits; `""` is not a digit string). -/
def pyIsdigit (s : String) : Bool :=
  !s.data.isEmpty && s.data.all Char.isDigit

/-- `int(s)` for a string of decimal digits. -/
def strToNat (s : String) : Nat :=
  s.data.foldl (fun a c => a * 10 + (c.toNat - 48)) 0

/-- `str.startswith(pre)`. -/
def pyStartswith (s pre : String) : Bool :=
  pre.data.isPrefixOf s.data

/-- Fuel-driven decimal digit renderer (fuel is structurally consumed so
that concrete evaluations reduce in the kernel; `natDigits` always supplies
enough fuel). -/
def natDigitsCore : Nat → Nat → List Char → List Char
  | 0, _, acc => acc
  | fuel + 1, n, acc =>
    if n < 10 then Char.ofNat (48 + n % 10) :: acc
    else natDigitsCore fuel (n / 10) (Char.ofNat (48 + n % 10) :: acc)

/-- Decimal digit list of a natural number: `str(n)` /
`"{n}"`-interpolation for the ids built by the scheduler. -/
def natDigits (n : Nat) : List Char := natDigitsCore (n + 1) n []

/-- `str(n)` for a natural number. -/
def natStr (n : Nat) : String := String.mk (natDigits n)

/-- `str(i)` for a Python int. -/
def intStr (i : Int) : String :=
  if i < 0 then "-" ++ natStr i.natAbs else natStr i.natAbs

/-! ## services/discipline.py -/

/-- Python `round(q, 0)` for an exact rational: round half to even. -/
def roundHalfEven (q : ℚ) : Int :=
  if q - ⌊q⌋ < 1/2 then ⌊q⌋
  else if 1/2 < q - ⌊q⌋ then ⌊q⌋ + 1
  else if ⌊q⌋ % 2 = 0 then ⌊q⌋ else ⌊q⌋ + 1

/-- Python `round(q, 2)`. -/
def pyRound2 (q : ℚ) : ℚ := (roundHalfEven (q * 100) : ℚ) / 100

/-- `calculate_discipline_score(completed, scheduled)` from
services/discipline.py, with floats modelled by `ℚ`. -/
def calculate_discipline_score (completed scheduled : Int) : ℚ :=
  if scheduled ≤ 0 then 0
  else pyRound2 ((completed : ℚ) / (scheduled : ℚ) * 100)

/-- `compute_week_parity_offset(reference, is_even_week)` from
services/discipline.py. -/
def compute_week_parity_offset (reference : PyDateTime) (is_even_week : Bool) : Int :=
  let iso_even := reference.isoweek % 2 == 0
  if iso_even == is_even_week then 0 else 1

/-- `is_week_allowed(target, offset, week_type)` from services/discipline.py. -/
def is_week_allowed (target : PyDateTime) (offset : Int) (week_type : String) : Bool :=
  let normalized := pyStrip (pyLower week_type)
  if normalized = "any" then true
  else
    let iso_even := target.isoweek % 2 == 0
    let parity : Int := if iso_even then 0 else 1
    let user_even := (parity + offset) % 2 == 0
    if normalized = "even" then user_even
    else if normalized = "odd" then !user_even
    else true

/-- `is_user_week_even(target, offset)` from services/discipline.py. -/
def is_user_week_even (target : PyDateTime) (offset : Int) : Bool :=
  let iso_even := target.isoweek % 2 == 0
  let parity : Int := if iso_even then 0 else 1
  (parity + offset) % 2 == 0

/-- A row of the `workout_schedule` table as returned by
`queries.get_workout_schedule` (`weekday`, `time`, `week_type`). -/
structure ScheduleEntryRow where
  weekday : Int
  time : String
  week_type : String
deriving DecidableEq, Repr

/-- One step of building `schedule_by_weekday`:
`schedule_by_weekday.setdefault(weekday, []).append(week_type)`. -/
def setdefaultAppend (m : List (Int × List String)) (k : Int) (v : String) :
    List (Int × List String) :=
  match m with
  | [] => [(k, [v])]
  | (k0, vs) :: rest =>
    if k0 == k then (k0, vs ++ [v]) :: rest
    else (k0, vs) :: setdefaultAppend rest k v

/-- The `schedule_by_weekday` dict of `count_scheduled_workouts`, as an
insertion-ordered association list. -/
def schedule_by_weekday (schedule : List ScheduleEntryRow) : List (Int × List String) :=
  schedule.foldl (fun m e => setdefaultAppend m e.weekday e.week_type) []

/-- `schedule_by_weekday.get(k, [])`. -/
def dictGet (m : List (Int × List String)) (k : Int) : List String :=
  match m.find? (fun p => p.1 == k) with
  | some p => p.2
  | none => []

/-- The `while current <= end_date` loop body of `count_scheduled_workouts`,
driven by the number of remaining days (`end_date.toordinal() + 1 -
current.toordinal()`, the exact iteration count of the source loop); each
step advances `current` by `timedelta(days=1)`. -/
def countLoop (m : List (Int × List String)) (off : Int) : PyDate → Nat → Nat
  | _, 0 => 0
  | current, n + 1 =>
    (dictGet m ((current.weekday : Int))).countP
        (fun wt => is_week_allowed current.atMidnight off wt)
      + countLoop m off current.nextDay n

/-- `count_scheduled_workouts(schedule, start, end, week_parity_offset)`
from services/discipline.py. -/
def count_scheduled_workouts (schedule : List ScheduleEntryRow)
    (start stop : PyDateTime) (week_parity_offset : Int) : Nat :=
  if dtLt stop start then 0
  else countLoop (schedule_by_weekday schedule) week_parity_offset
    start.date (stop.date.ord + 1 - start.date.ord)

/-! ## Specification-side functions for the scheduled-workout count -/

/-- Per-day tally as the spec words it: one count for each schedule entry
whose weekday equals the day's weekday and whose week-type passes
`is_week_allowed` on that day. -/
def specDayTally (schedule : List ScheduleEntryRow) (off : Int) (d : PyDate) : Nat :=
  schedule.countP
    (fun e => e.weekday == (d.weekday : Int) && is_week_allowed d.atMidnight off e.week_type)

/-- The `n` consecutive calendar days starting at `d`. -/
def dateList (d : PyDate) : Nat → List PyDate
  | 0 => []
  | n + 1 => d :: dateList d.nextDay n

theorem dictGet_setdefaultAppend_same (m : List (Int × List String)) (k : Int) (v : String) :
    dictGet (setdefaultAppend m k v) k = dictGet m k ++ [v] := by
  induction m with
  | nil => simp [dictGet, setdefaultAppend, List.find?]
  | cons hd tl ih =>
    obtain ⟨k0, vs⟩ := hd
    by_cases h : (k0 == k) = true
    · simp [dictGet, setdefaultAppend, List.find?, h]
    · rw [Bool.not_eq_true] at h
      simp only [setdefaultAppend, h, Bool.false_eq_true, if_false]
      simp [dictGet, List.find?, h] at ih ⊢
      exact ih

theorem dictGet_setdefaultAppend_ne (m : List (Int × List String)) (k k' : Int) (v : String)
    (h : (k' == k) = false) :
    dictGet (setdefaultAppend m k' v) k = dictGet m k := by
  induction m with
  | nil => simp [dictGet, setdefaultAppend, List.find?, h]
  | cons hd tl ih =>
    obtain ⟨k0, vs⟩ := hd
    by_cases h0 : (k0 == k') = true
    · have hk : (k0 == k) = false := by
        have := eq_of_beq h0
        subst this
        exact h
      simp [dictGet, setdefaultAppend, List.find?, h0, hk]
    · rw [Bool.not_eq_true] at h0
      simp only [setdefaultAppend, h0, Bool.false_eq_true, if_false]
      by_cases hk : (k0 == k) = true
      · simp [dictGet, List.find?, hk]
      · rw [Bool.not_eq_true] at hk
        simp only [dictGet, List.find?, hk] at ih ⊢
        exact ih

theorem dictGet_foldl (s : List ScheduleEntryRow) (m : List (Int × List String)) (k : Int) :
    dictGet (s.foldl (fun m e => setdefaultAppend m e.weekday e.week_type) m) k
      = dictGet m k ++ (s.filter (fun e => e.weekday == k)).map (·.week_type) := by
  induction s generalizing m with
  | nil => simp
  | cons e rest ih =>
    simp only [List.foldl_cons, List.filter_cons]
    by_cases h : (e.weekday == k) = true
    · rw [ih, h]
      have hek : e.weekday = k := eq_of_beq h
      rw [hek, dictGet_setdefaultAppend_same]
      simp
    · rw [Bool.not_eq_true] at h
      rw [ih, dictGet_setdefaultAppend_ne _ _ _ _ h, h]
      simp

theorem dictGet_schedule_by_weekday (s : List ScheduleEntryRow) (k : Int) :
    dictGet (schedule_by_weekday s) k
      = (s.filter (fun e => e.weekday == k)).map (·.week_type) := by
  rw [schedule_by_weekday, dictGet_foldl]
  rfl

theorem countLoop_eq_sum (s : List ScheduleEntryRow) (off : Int) (n : Nat) (current : PyDate) :
    countLoop (schedule_by_weekday s) off current n
      = ((dateList current n).map (specDayTally s off)).sum := by
  induction n generalizing current with
  | zero => rfl
  | succ n ih =>
    rw [countLoop, dateList, List.map_cons, List.sum_cons, ih]
    congr 1
    rw [dictGet_schedule_by_weekday, List.countP_map, List.countP_filter]
    apply List.countP_congr
    intro e _
    simp only [Function.comp_apply]
    rw [Bool.and_comm]

/-- Claim C2: `count_scheduled_workouts` iterates every calendar day in
`[start, end]` inclusive and, for each day, counts each schedule entry
whose weekday equals that day's weekday exactly once when the day passes
the week-type filter for the offset (entries with different week-types on
the same day count independently); `start > end` yields 0, not an error;
and the two-entry even/odd scenario over the 14 days 2024-01-08..2024-01-21
at offset 0 yields 2. -/
theorem count_scheduled_workouts_spec :
    (∀ (schedule : List ScheduleEntryRow) (off : Int) (start stop : PyDateTime),
        dtLt stop start = false →
        count_scheduled_workouts schedule start stop off
          = ((dateList start.date (stop.date.ord + 1 - start.date.ord)).map
              (specDayTally schedule off)).sum) ∧
    (∀ (schedule : List ScheduleEntryRow) (off : Int) (start stop : PyDateTime),
        dtLt stop start = true →
        count_scheduled_workouts schedule start stop off = 0) ∧
    count_scheduled_workouts [⟨2, "07:00", "even"⟩, ⟨2, "07:00", "odd"⟩]
      ⟨2024, 1, 8, 0, 0, 0⟩ ⟨2024, 1, 21, 0, 0, 0⟩ 0 = 2 := by
  refine ⟨?_, ?_, by decide⟩
  · intro schedule off start stop h
    rw [count_scheduled_workouts, h, if_neg (by simp), countLoop_eq_sum]
  · intro schedule off start stop h
    rw [count_scheduled_workouts, h, if_pos rfl]

/-- Witness for C2 at concrete inputs: the 14-day scenario discharges the
`start ≤ end` hypothesis, and a one-day reversed range discharges the
`start > end` hypothesis. -/
theorem count_scheduled_workouts_spec_witness :
    count_scheduled_workouts [⟨2, "07:00", "even"⟩, ⟨2, "07:00", "odd"⟩]
      ⟨2024, 1, 8, 0, 0, 0⟩ ⟨2024, 1, 21, 0, 0, 0⟩ 0
      = ((dateList ⟨2024, 1, 8⟩ 14).map
          (specDayTally [⟨2, "07:00", "even"⟩, ⟨2, "07:00", "odd"⟩] 0)).sum ∧
    count_scheduled_workouts [⟨2, "07:00", "even"⟩]
      ⟨2024, 1, 9, 0, 0, 0⟩ ⟨2024, 1, 8, 0, 0, 0⟩ 0 = 0 := by
  constructor
  · have h := count_scheduled_workouts_spec.1
      [⟨2, "07:00", "even"⟩, ⟨2, "07:00", "odd"⟩]
      0 ⟨2024, 1, 8, 0, 0, 0⟩ ⟨2024, 1, 21, 0, 0, 0⟩ (by decide)
    exact h.trans (by decide)
  · exact count_scheduled_workouts_spec.2.1 [⟨2, "07:00", "even"⟩]
      0 ⟨2024, 1, 9, 0, 0, 0⟩ ⟨2024, 1, 8, 0, 0, 0⟩ (by decide)

/-- Claim C1: for every datetime and boolean claim, computing the parity
offset from the datetime and the claim and then evaluating the
user-relative parity at the same datetime round-trips. -/
theorem is_user_week_even_offset_roundtrip (D : PyDateTime) (claim : Bool) :
    is_user_week_even D (compute_week_parity_offset D claim) = claim := by
  unfold is_user_week_even compute_week_parity_offset
  cases h : (D.isoweek % 2 == 0) <;> cases claim <;> simp [h]

/-- Claim C7: the discipline score is 0 whenever `scheduled <= 0`, and
otherwise `completed / scheduled * 100` rounded to two decimals; in
particular `score(3, 10) = 30`. -/
theorem calculate_discipline_score_spec :
    (∀ completed scheduled : Int, scheduled ≤ 0 →
        calculate_discipline_score completed scheduled = 0) ∧
    (∀ completed scheduled : Int, 0 < scheduled →
        calculate_discipline_score completed scheduled
          = pyRound2 ((completed : ℚ) / (scheduled : ℚ) * 100)) ∧
    calculate_discipline_score 3 10 = 30 := by
  refine ⟨?_, ?_, ?_⟩
  · intro completed scheduled h
    rw [calculate_discipline_score, if_pos h]
  · intro completed scheduled h
    rw [calculate_discipline_score, if_neg (by omega)]
  · simp only [calculate_discipline_score, pyRound2, roundHalfEven]
    norm_num

/-- Witness for C7 at concrete inputs. -/
theorem calculate_discipline_score_spec_witness :
    calculate_discipline_score 5 0 = 0 ∧
    calculate_discipline_score 3 10 = pyRound2 ((3 : ℚ) / (10 : ℚ) * 100) :=
  ⟨calculate_discipline_score_spec.1 5 0 (by norm_num),
   calculate_discipline_score_spec.2.1 3 10 (by norm_num)⟩

/-- Claim C9: a week-type string that normalizes (lowercase, strip) to
something other than "any", "even" or "odd" makes `is_week_allowed` return
`true` — unrecognized week-types silently permit the occurrence. -/
theorem is_week_allowed_unknown_week_type (dt : PyDateTime) (offset : Int) (wt : String)
    (h1 : pyStrip (pyLower wt) ≠ "any") (h2 : pyStrip (pyLower wt) ≠ "even")
    (h3 : pyStrip (pyLower wt) ≠ "odd") :
    is_week_allowed dt offset wt = true := by
  simp [is_week_allowed, h1, h2, h3]

/-- Witness for C9: the week-type "weird" permits any occurrence. -/
theorem is_week_allowed_unknown_week_type_witness :
    is_week_allowed ⟨2024, 1, 10, 0, 0, 0⟩ 0 "weird" = true :=
  is_week_allowed_unknown_week_type ⟨2024, 1, 10, 0, 0, 0⟩ 0 "weird"
    (by decide) (by decide) (by decide)

/-! ## scheduler.py

The APScheduler job store is modelled as the list of installed jobs in
installation order; only the fields the claims are about are kept: the job
id and the `CronTrigger`'s `day_of_week` / `hour` / `minute`. -/

/-- An installed APScheduler job: its string id and weekly cron trigger. -/
structure Job where
  id : String
  day_of_week : Int
  hour : Int
  minute : Int
deriving DecidableEq, Repr

/-- The per-user job-id prefix used by `_remove_user_jobs`:
`f"user:{user_id}:"`. -/
def userJobPrefix (user_id : Nat) : String :=
  "user:" ++ natStr user_id ++ ":"

/-- `scheduler.add_job(..., id=..., replace_existing=True)`: a job with the
same id is replaced in place, otherwise the job is appended. -/
def add_job (jobs : List Job) (j : Job) : List Job :=
  if jobs.any (fun x => x.id == j.id) then
    jobs.map (fun x => if x.id == j.id then j else x)
  else jobs ++ [j]

/-- `_remove_user_jobs(scheduler, user_id)`: the loop over
`scheduler.get_jobs()` removes exactly the jobs whose id starts with
`f"user:{user_id}:"`, leaving the rest in order. -/
def removeUserJobs (jobs : List Job) (user_id : Nat) : List Job :=
  jobs.filter (fun job => !(pyStartswith job.id (userJobPrefix user_id)))

/-- `_parse_time(time_str)`: `hour_str, minute_str = time_str.split(":")`
then `int(...)` on both parts (callers only pass validated `HH:MM`
strings; other shapes raise in Python and are mapped to `(0, 0)` here). -/
def parseTimePair (time_str : String) : Int × Int :=
  match pySplit time_str ':' with
  | [h, m] => ((strToNat h : Int), (strToNat m : Int))
  | _ => (0, 0)

/-- `_adjust_time(weekday, hour, minute, delta_minutes)`: anchor at
`datetime(2000, 1, 3 + weekday, hour, minute)` (2000-01-03 is a Monday),
add `timedelta(minutes=delta_minutes)`, and read back
`(weekday(), hour, minute)`.  `timedelta` addition normalizes with floor
division, which for the positive divisors here is `Int.ediv`/`Int.emod`
(Lean's `/` and `%` on `Int`). -/
def adjustTime (weekday hour minute delta_minutes : Int) : Int × Int × Int :=
  let base : Int := (ymd2ord 2000 1 (3 + weekday).toNat : Int) * 1440 + hour * 60 + minute
  let adjusted := base + delta_minutes
  ((adjusted / 1440 + 6) % 7, adjusted % 1440 / 60, adjusted % 1440 % 60)

/-- The `reminder_times` table of `schedule_user_jobs`:
`(delta_minutes, hours_before)` pairs. -/
def reminder_times : List (Int × Nat) :=
  [(-24 * 60, 24), (-12 * 60, 12), (-6 * 60, 6), (-3 * 60, 3), (-2 * 60, 2), (-60, 1)]

/-- `f"user:{user_id}:reminder:{hours_before}h:{weekday}:{time_str}:{week_type}"`. -/
def reminderJobId (user_id : Nat) (hours_before : Nat) (e : ScheduleEntryRow) : String :=
  userJobPrefix user_id ++
    ("reminder:" ++ natStr hours_before ++ "h:" ++ intStr e.weekday ++ ":" ++ e.time
      ++ ":" ++ e.week_type)

/-- `f"user:{user_id}:confirm:{weekday}:{time_str}:{week_type}"`. -/
def confirmJobId (user_id : Nat) (e : ScheduleEntryRow) : String :=
  userJobPrefix user_id ++
    ("confirm:" ++ intStr e.weekday ++ ":" ++ e.time ++ ":" ++ e.week_type)

/-- `f"user:{user_id}:missed:{weekday}:{time_str}:{week_type}"`. -/
def missedJobId (user_id : Nat) (e : ScheduleEntryRow) : String :=
  userJobPrefix user_id ++
    ("missed:" ++ intStr e.weekday ++ ":" ++ e.time ++ ":" ++ e.week_type)

/-- The jobs installed for one schedule entry by the body of the
`for entry in schedule` loop of `schedule_user_jobs`: six reminders (one
per `reminder_times` element, cron at `_adjust_time(weekday, hour, minute,
delta_minutes)`), the confirmation at the occurrence's own weekday/time,
and the missed-check at `_adjust_time(..., 180)`. -/
def entryJobs (user_id : Nat) (e : ScheduleEntryRow) : List Job :=
  let hm := parseTimePair e.time
  (reminder_times.map (fun p =>
    let whm := adjustTime e.weekday hm.1 hm.2 p.1
    { id := reminderJobId user_id p.2 e,
      day_of_week := whm.1, hour := whm.2.1, minute := whm.2.2 }))
  ++ [{ id := confirmJobId user_id e,
        day_of_week := e.weekday, hour := hm.1, minute := hm.2 }]
  ++ (let whm := adjustTime e.weekday hm.1 hm.2 180
      [{ id := missedJobId user_id e,
         day_of_week := whm.1, hour := whm.2.1, minute := whm.2.2 }])

/-- `schedule_user_jobs(scheduler, db, bot, user_id, tg_id, schedule,
week_parity_offset, tz)` as its effect on the job store: first
`_remove_user_jobs`, then `add_job` for every trigger of every entry, in
source order. -/
def schedule_user_jobs (jobs : List Job) (user_id : Nat)
    (schedule : List ScheduleEntryRow) : List Job :=
  schedule.foldl (fun acc e => (entryJobs user_id e).foldl add_job acc)
    (removeUserJobs jobs user_id)

/-- The spec's wording of the trigger-time computation: subtract (or add)
the lead time from `(weekday, hour, minute)` by ordinary clock/calendar
arithmetic, i.e. in minutes modulo one week. -/
def clockAdjustSpec (weekday hour minute delta : Int) : Int × Int × Int :=
  let t := (weekday * 1440 + hour * 60 + minute + delta) % 10080
  (t / 1440, t % 1440 / 60, t % 1440 % 60)

/-! ## Decimal-rendering lemmas -/

/-- Decimal value of a digit list (left fold, most significant first). -/
def charsVal (l : List Char) : Nat :=
  l.foldl (fun a c => a * 10 + (c.toNat - 48)) 0

theorem toNat_digitChar (k : Nat) (h : k < 10) : (Char.ofNat (48 + k)).toNat = 48 + k := by
  interval_cases k <;> decide

theorem natDigitsCore_append (fuel : Nat) :
    ∀ (n : Nat) (acc : List Char),
      natDigitsCore fuel n acc = natDigitsCore fuel n [] ++ acc := by
  induction fuel with
  | zero => intro n acc; rfl
  | succ fuel ih =>
    intro n acc
    by_cases h : n < 10
    · simp [natDigitsCore, h]
    · rw [natDigitsCore, if_neg h, natDigitsCore, if_neg h, ih (n / 10), ih (n / 10) [_]]
      simp

theorem natDigitsCore_digits (fuel : Nat) :
    ∀ (n : Nat) (acc : List Char), (∀ c ∈ acc, 48 ≤ c.toNat ∧ c.toNat ≤ 57) →
      ∀ c ∈ natDigitsCore fuel n acc, 48 ≤ c.toNat ∧ c.toNat ≤ 57 := by
  induction fuel with
  | zero => intro n acc hacc; exact hacc
  | succ fuel ih =>
    intro n acc hacc c hc
    have hd : 48 ≤ (Char.ofNat (48 + n % 10)).toNat ∧ (Char.ofNat (48 + n % 10)).toNat ≤ 57 := by
      rw [toNat_digitChar (n % 10) (Nat.mod_lt n (by omega))]
      omega
    rw [natDigitsCore] at hc
    by_cases h : n < 10
    · rw [if_pos h] at hc
      rcases List.mem_cons.mp hc with rfl | hmem
      · exact hd
      · exact hacc c hmem
    · rw [if_neg h] at hc
      refine ih (n / 10) _ ?_ c hc
      intro c' hc'
      rcases List.mem_cons.mp hc' with rfl | hmem
      · exact hd
      · exact hacc c' hmem

theorem charsVal_append_singleton (l : List Char) (c : Char) :
    charsVal (l ++ [c]) = charsVal l * 10 + (c.toNat - 48) := by
  simp [charsVal, List.foldl_append]

theorem natDigitsCore_val (fuel : Nat) :
    ∀ n : Nat, n < fuel → charsVal (natDigitsCore fuel n []) = n := by
  induction fuel with
  | zero => intro n hn; omega
  | succ fuel ih =>
    intro n hn
    by_cases h : n < 10
    · rw [natDigitsCore, if_pos h]
      simp [charsVal, toNat_digitChar (n % 10) (Nat.mod_lt n (by omega))]
      omega
    · rw [natDigitsCore, if_neg h, natDigitsCore_append, charsVal_append_singleton,
        ih (n / 10) (by omega), toNat_digitChar (n % 10) (Nat.mod_lt n (by omega))]
      omega

theorem natDigits_val (n : Nat) : charsVal (natDigits n) = n :=
  natDigitsCore_val (n + 1) n (Nat.lt_succ_self n)

theorem natDigits_inj {u v : Nat} (h : natDigits u = natDigits v) : u = v := by
  have := congrArg charsVal h
  rwa [natDigits_val, natDigits_val] at this

theorem colon_not_mem_natDigits (n : Nat) : (':' : Char) ∉ natDigits n := by
  intro hmem
  have h := natDigitsCore_digits (n + 1) n [] (by simp) ':' hmem
  have : (':' : Char).toNat = 58 := by decide
  omega

/-! ## Prefix lemmas for the user-job key space -/

theorem append_singleton_prefix_eq (c : Char) :
    ∀ (xs ys zs : List Char), c ∉ xs → c ∉ ys →
      xs ++ [c] <+: ys ++ c :: zs → xs = ys := by
  intro xs
  induction xs with
  | nil =>
    intro ys zs _ hys h
    cases ys with
    | nil => rfl
    | cons y ys =>
      rw [List.nil_append, List.cons_append, List.cons_prefix_cons] at h
      exact absurd (h.1 ▸ List.mem_cons_self y ys) hys
  | cons x xs ih =>
    intro ys zs hxs hys h
    cases ys with
    | nil =>
      rw [List.cons_append, List.nil_append, List.cons_prefix_cons] at h
      exact absurd (h.1 ▸ List.mem_cons_self x xs) hxs
    | cons y ys =>
      rw [List.cons_append, List.cons_append, List.cons_prefix_cons] at h
      have hx : c ∉ xs := fun hc => hxs (List.mem_cons_of_mem x hc)
      have hy : c ∉ ys := fun hc => hys (List.mem_cons_of_mem y hc)
      rw [h.1, ih ys zs hx hy h.2]

theorem userJobPrefix_data (u : Nat) :
    (userJobPrefix u).data = ['u', 's', 'e', 'r', ':'] ++ (natDigits u ++ [':']) := by
  simp [userJobPrefix, natStr, String.data_append, List.append_assoc]

theorem pyStartswith_userJobPrefix {u v : Nat} (rest : String)
    (h : pyStartswith (userJobPrefix v ++ rest) (userJobPrefix u) = true) : u = v := by
  rw [pyStartswith, List.isPrefixOf_iff_prefix, String.data_append,
    userJobPrefix_data, userJobPrefix_data, List.append_assoc,
    List.prefix_append_right_inj] at h
  have hshape : natDigits v ++ [':'] ++ rest.data = natDigits v ++ ':' :: rest.data := by
    simp
  rw [hshape] at h
  exact natDigits_inj
    (append_singleton_prefix_eq ':' (natDigits u) (natDigits v) rest.data
      (colon_not_mem_natDigits u) (colon_not_mem_natDigits v) h)

theorem startswith_userJobPrefix_head (u : Nat) (s : String)
    (h : s.data.head? ≠ some 'u') : pyStartswith s (userJobPrefix u) = false := by
  rw [pyStartswith, userJobPrefix_data]
  cases hs : s.data with
  | nil => rfl
  | cons b bs =>
    rw [List.cons_append, List.isPrefixOf_cons₂]
    have hb : ('u' == b) = false := by
      rw [hs] at h
      simp only [List.head?_cons, ne_eq, Option.some.injEq] at h
      exact beq_false_of_ne (fun hub => h hub.symm)
    rw [hb, Bool.false_and]

/-! ## Job-store lemmas -/

theorem mem_entryJobs_id (uid : Nat) (e : ScheduleEntryRow) (j : Job)
    (h : j ∈ entryJobs uid e) : ∃ rest, j.id = userJobPrefix uid ++ rest := by
  simp only [entryJobs, List.mem_append, List.mem_map, List.mem_singleton] at h
  rcases h with (⟨p, _, rfl⟩ | rfl) | rfl
  · exact ⟨_, rfl⟩
  · exact ⟨_, rfl⟩
  · exact ⟨_, rfl⟩

theorem entryJobs_prefixed (uid : Nat) (e : ScheduleEntryRow) (j : Job)
    (h : j ∈ entryJobs uid e) : pyStartswith j.id (userJobPrefix uid) = true := by
  obtain ⟨rest, hid⟩ := mem_entryJobs_id uid e j h
  rw [hid, pyStartswith, List.isPrefixOf_iff_prefix, String.data_append]
  exact List.prefix_append _ _

theorem entryJobs_other_user (u v : Nat) (e : ScheduleEntryRow) (j : Job)
    (huv : u ≠ v) (h : j ∈ entryJobs v e) :
    pyStartswith j.id (userJobPrefix u) = false := by
  obtain ⟨rest, hid⟩ := mem_entryJobs_id v e j h
  rw [hid]
  cases hb : pyStartswith (userJobPrefix v ++ rest) (userJobPrefix u) with
  | false => rfl
  | true => exact absurd (pyStartswith_userJobPrefix rest hb) huv

theorem filter_map_replace (pre : String) (jobs : List Job) (j : Job)
    (hj : pyStartswith j.id pre = true) :
    (jobs.map (fun x => if x.id == j.id then j else x)).filter
        (fun x => !(pyStartswith x.id pre))
      = jobs.filter (fun x => !(pyStartswith x.id pre)) := by
  induction jobs with
  | nil => rfl
  | cons x xs ih =>
    rw [List.map_cons]
    by_cases hx : (x.id == j.id) = true
    · have hPx : pyStartswith x.id pre = true := (eq_of_beq hx) ▸ hj
      rw [if_pos hx, List.filter_cons_of_neg (by simp [hj]),
        List.filter_cons_of_neg (by simp [hPx]), ih]
    · rw [if_neg hx, List.filter_cons, List.filter_cons, ih]

theorem filter_add_job (pre : String) (acc : List Job) (j : Job)
    (hj : pyStartswith j.id pre = true) :
    (add_job acc j).filter (fun x => !(pyStartswith x.id pre))
      = acc.filter (fun x => !(pyStartswith x.id pre)) := by
  rw [add_job]
  by_cases hc : (acc.any fun x => x.id == j.id) = true
  · rw [if_pos hc]
    exact filter_map_replace pre acc j hj
  · rw [if_neg hc, List.filter_append]
    simp [hj]

theorem filter_foldl_add_job (pre : String) (js : List Job) :
    ∀ acc : List Job, (∀ j ∈ js, pyStartswith j.id pre = true) →
      (js.foldl add_job acc).filter (fun x => !(pyStartswith x.id pre))
        = acc.filter (fun x => !(pyStartswith x.id pre)) := by
  induction js with
  | nil => intro acc _; rfl
  | cons j js ih =>
    intro acc hall
    rw [List.foldl_cons, ih _ (fun x hx => hall x (List.mem_cons_of_mem j hx)),
      filter_add_job pre acc j (hall j (List.mem_cons_self j js))]

theorem filter_schedule_fold (uid : Nat) (sched : List ScheduleEntryRow) :
    ∀ acc : List Job,
      (sched.foldl (fun a e => (entryJobs uid e).foldl add_job a) acc).filter
          (fun x => !(pyStartswith x.id (userJobPrefix uid)))
        = acc.filter (fun x => !(pyStartswith x.id (userJobPrefix uid))) := by
  induction sched with
  | nil => intro acc; rfl
  | cons e sched ih =>
    intro acc
    rw [List.foldl_cons, ih,
      filter_foldl_add_job _ _ _ (fun j hj => entryJobs_prefixed uid e j hj)]

theorem mem_add_job {acc : List Job} {j k : Job} (h : j ∈ add_job acc k) :
    j ∈ acc ∨ j = k := by
  rw [add_job] at h
  by_cases hc : (acc.any fun x => x.id == k.id) = true
  · rw [if_pos hc] at h
    obtain ⟨x, hx, hfx⟩ := List.mem_map.mp h
    by_cases hxk : (x.id == k.id) = true
    · right
      rw [if_pos hxk] at hfx
      exact hfx.symm
    · left
      rw [if_neg hxk] at hfx
      exact hfx ▸ hx
  · rw [if_neg hc] at h
    rcases List.mem_append.mp h with h | h
    · left; exact h
    · right; exact List.mem_singleton.mp h

theorem mem_foldl_add_job :
    ∀ (js : List Job) (acc : List Job) (j : Job),
      j ∈ js.foldl add_job acc → j ∈ acc ∨ j ∈ js := by
  intro js
  induction js with
  | nil => intro acc j h; left; exact h
  | cons k js ih =>
    intro acc j h
    rw [List.foldl_cons] at h
    rcases ih _ j h with h1 | h1
    · rcases mem_add_job h1 with h2 | h2
      · left; exact h2
      · right; exact h2 ▸ List.mem_cons_self k js
    · right; exact List.mem_cons_of_mem k h1

theorem mem_schedule_fold (uid : Nat) :
    ∀ (sched : List ScheduleEntryRow) (acc : List Job) (j : Job),
      j ∈ sched.foldl (fun a e => (entryJobs uid e).foldl add_job a) acc →
      j ∈ acc ∨ ∃ e ∈ sched, j ∈ entryJobs uid e := by
  intro sched
  induction sched with
  | nil => intro acc j h; left; exact h
  | cons e sched ih =>
    intro acc j h
    rw [List.foldl_cons] at h
    rcases ih _ j h with h1 | ⟨e1, he1, hj1⟩
    · rcases mem_foldl_add_job _ _ _ h1 with h2 | h2
      · left; exact h2
      · right; exact ⟨e, List.mem_cons_self e sched, h2⟩
    · right; exact ⟨e1, List.mem_cons_of_mem e he1, hj1⟩

/-- Claim C3: re-planning first strips every job whose key carries the
user's prefix and then installs the new triggers, so (a) re-planning twice
with the same schedule leaves the job store identical — no duplicate or
stale accumulation — and (b) every user-prefixed job in the resulting
store is one of the freshly computed triggers of the given schedule. -/
theorem schedule_user_jobs_replan :
    (∀ (jobs : List Job) (uid : Nat) (sched : List ScheduleEntryRow),
        schedule_user_jobs (schedule_user_jobs jobs uid sched) uid sched
          = schedule_user_jobs jobs uid sched) ∧
    (∀ (jobs : List Job) (uid : Nat) (sched : List ScheduleEntryRow) (j : Job),
        j ∈ schedule_user_jobs jobs uid sched →
        pyStartswith j.id (userJobPrefix uid) = true →
        ∃ e ∈ sched, j ∈ entryJobs uid e) := by
  constructor
  · intro jobs uid sched
    have hclean : removeUserJobs (schedule_user_jobs jobs uid sched) uid
        = removeUserJobs jobs uid := by
      rw [removeUserJobs, schedule_user_jobs, filter_schedule_fold, removeUserJobs,
        List.filter_filter]
      simp
    conv_lhs => rw [schedule_user_jobs, hclean]
    rfl
  · intro jobs uid sched j hmem hpre
    rcases mem_schedule_fold uid sched _ j hmem with h | h
    · exfalso
      rw [removeUserJobs, List.mem_filter, hpre] at h
      simp at h
    · exact h

/-- Witness for C3 at a concrete store and schedule: the confirmation job
found in the re-planned store is one of the entry's own triggers. -/
theorem schedule_user_jobs_replan_witness :
    ∃ e ∈ [(⟨2, "07:00", "even"⟩ : ScheduleEntryRow)],
      (⟨"user:1:confirm:2:07:00:even", 2, 7, 0⟩ : Job) ∈ entryJobs 1 e :=
  schedule_user_jobs_replan.2 [] 1 [⟨2, "07:00", "even"⟩]
    ⟨"user:1:confirm:2:07:00:even", 2, 7, 0⟩ (by decide) (by decide)

theorem adjustTime_eq_spec (w h m δ : Int) (hw0 : 0 ≤ w) (hw6 : w ≤ 6) :
    adjustTime w h m δ = clockAdjustSpec w h m δ := by
  have hord : (ymd2ord 2000 1 (3 + w).toNat : Int) = 730119 + (3 + w) := by
    have hrfl : ∀ d : Nat, ymd2ord 2000 1 d = 730119 + d := fun d => rfl
    rw [hrfl]
    push_cast
    omega
  obtain ⟨q, u, hs, hu0, hu1⟩ :
      ∃ q u : Int, w * 1440 + h * 60 + m + δ = 10080 * q + u ∧ 0 ≤ u ∧ u < 10080 :=
    ⟨(w * 1440 + h * 60 + m + δ) / 10080, (w * 1440 + h * 60 + m + δ) % 10080,
      by omega, by omega, by omega⟩
  simp only [adjustTime, clockAdjustSpec, hord, Prod.mk.injEq]
  refine ⟨?_, ?_, ?_⟩ <;> omega

/-- Claim C4: for a schedule entry the planner installs exactly 8 triggers
— six reminders at lead times 24h, 12h, 6h, 3h, 2h, 1h before the
occurrence, one confirmation at the occurrence's own weekday/time, and one
missed-check 3 hours (180 minutes) after it — and every trigger's
weekday/hour/minute equals ordinary clock/calendar arithmetic on
`(weekday, time)` (minutes modulo one week), which can roll the trigger
onto a different weekday: a Monday 01:00 occurrence's 24h-before reminder
is computed for Sunday 01:00. -/
theorem entry_trigger_times :
    (∀ w h m δ : Int, 0 ≤ w → w ≤ 6 →
        adjustTime w h m δ = clockAdjustSpec w h m δ) ∧
    (∀ (uid : Nat) (e : ScheduleEntryRow), 0 ≤ e.weekday → e.weekday ≤ 6 →
        (entryJobs uid e).length = 8 ∧
        (entryJobs uid e).map (fun j => (j.day_of_week, j.hour, j.minute))
          = [clockAdjustSpec e.weekday (parseTimePair e.time).1 (parseTimePair e.time).2 (-24 * 60),
             clockAdjustSpec e.weekday (parseTimePair e.time).1 (parseTimePair e.time).2 (-12 * 60),
             clockAdjustSpec e.weekday (parseTimePair e.time).1 (parseTimePair e.time).2 (-6 * 60),
             clockAdjustSpec e.weekday (parseTimePair e.time).1 (parseTimePair e.time).2 (-3 * 60),
             clockAdjustSpec e.weekday (parseTimePair e.time).1 (parseTimePair e.time).2 (-2 * 60),
             clockAdjustSpec e.weekday (parseTimePair e.time).1 (parseTimePair e.time).2 (-60),
             (e.weekday, (parseTimePair e.time).1, (parseTimePair e.time).2),
             clockAdjustSpec e.weekday (parseTimePair e.time).1 (parseTimePair e.time).2 180]) ∧
    adjustTime 0 1 0 (-24 * 60) = (6, 1, 0) := by
  refine ⟨adjustTime_eq_spec, ?_, by decide⟩
  intro uid e hw0 hw6
  have hadj : ∀ δ : Int,
      adjustTime e.weekday (parseTimePair e.time).1 (parseTimePair e.time).2 δ
        = clockAdjustSpec e.weekday (parseTimePair e.time).1 (parseTimePair e.time).2 δ :=
    fun δ => adjustTime_eq_spec _ _ _ δ hw0 hw6
  constructor
  · simp [entryJobs, reminder_times]
  · simp [entryJobs, reminder_times, hadj]

/-- Witness for C4 at a concrete entry (Wednesday 07:00). -/
theorem entry_trigger_times_witness :
    adjustTime 2 7 0 (-24 * 60) = clockAdjustSpec 2 7 0 (-24 * 60) ∧
    (entryJobs 1 ⟨2, "07:00", "even"⟩).length = 8 :=
  ⟨entry_trigger_times.1 2 7 0 (-24 * 60) (by decide) (by decide),
   (entry_trigger_times.2.1 1 ⟨2, "07:00", "even"⟩ (by decide) (by decide)).1⟩

/-- Claim C10: removing a user's jobs keeps exactly the jobs whose key does
not start with the exact prefix `user:<u>:` (every other user's triggers
and the global jobs survive); because the prefix ends with a colon,
distinct numeric user ids never collide — in particular re-planning user 1
does not remove user 12's jobs. -/
theorem removeUserJobs_frame :
    (∀ (jobs : List Job) (u : Nat) (j : Job),
        j ∈ removeUserJobs jobs u ↔
          j ∈ jobs ∧ pyStartswith j.id (userJobPrefix u) = false) ∧
    (∀ (u v : Nat) (e : ScheduleEntryRow) (j : Job), u ≠ v → j ∈ entryJobs v e →
        pyStartswith j.id (userJobPrefix u) = false) ∧
    (∀ u : Nat,
        pyStartswith "global:weekly-weight" (userJobPrefix u) = false ∧
        pyStartswith "global:monthly-report" (userJobPrefix u) = false ∧
        pyStartswith "global:check-pending-payments" (userJobPrefix u) = false ∧
        pyStartswith "global:recurring-payments" (userJobPrefix u) = false) ∧
    pyStartswith "user:12:confirm:2:07:00:any" (userJobPrefix 1) = false := by
  refine ⟨?_, entryJobs_other_user, ?_, by decide⟩
  · intro jobs u j
    rw [removeUserJobs, List.mem_filter]
    simp
  · intro u
    exact ⟨startswith_userJobPrefix_head u _ (by decide),
      startswith_userJobPrefix_head u _ (by decide),
      startswith_userJobPrefix_head u _ (by decide),
      startswith_userJobPrefix_head u _ (by decide)⟩

/-- Witness for C10: user 12's concrete confirmation job is untouched by a
removal for user 1. -/
theorem removeUserJobs_frame_witness :
    pyStartswith (Job.id ⟨"user:12:confirm:2:07:00:any", 2, 7, 0⟩) (userJobPrefix 1) = false :=
  removeUserJobs_frame.2.1 1 12 ⟨2, "07:00", "any"⟩
    ⟨"user:12:confirm:2:07:00:any", 2, 7, 0⟩ (by decide) (by decide)

/-! ## Workout log: queries.py `upsert_workout_log` / `workout_log_exists`
and services/reminders.py `mark_missed_if_no_response`

The `workout_logs` table is the list of rows in insertion order; the
occurrence timestamp is identified by its `isoformat()` string, exactly the
key both queries compare on.  Only the fields the claims touch are kept. -/

/-- A `workout_logs` row. -/
structure LogRow where
  user_id : Int
  date : String
  status : String
deriving DecidableEq, Repr

/-- `workout_log_exists(db, user_id, workout_at)`. -/
def workout_log_exists (logs : List LogRow) (user_id : Int) (date : String) : Bool :=
  logs.any (fun r => r.user_id == user_id && r.date == date)

/-- The `UPDATE` arm of `upsert_workout_log`: rewrite the first row whose
`(user_id, date)` matches (the row `fetch_one` returns). -/
def updateFirstLog : List LogRow → LogRow → List LogRow
  | [], _ => []
  | r :: rest, log =>
    if r.user_id == log.user_id && r.date == log.date then
      { r with status := log.status } :: rest
    else r :: updateFirstLog rest log

/-- `upsert_workout_log(db, log)`. -/
def upsert_workout_log (logs : List LogRow) (log : LogRow) : List LogRow :=
  if workout_log_exists logs log.user_id log.date then updateFirstLog logs log
  else logs ++ [log]

/-- `mark_missed_if_no_response(db, bot, user_id, tg_id, workout_at)` as its
effect on the log store (the notification send is external). -/
def mark_missed_if_no_response (logs : List LogRow) (user_id : Int) (date : String) :
    List LogRow :=
  if workout_log_exists logs user_id date then logs
  else upsert_workout_log logs ⟨user_id, date, "missed"⟩

/-- Claim C6: when a log entry already exists for `(user, T)` — whatever
its status — the missed-detection sweep leaves the log unchanged; only
when no entry exists does it append one with status "missed"; in
particular upserting "done" for T and then sweeping T keeps the "done"
row. -/
theorem mark_missed_noop :
    (∀ (logs : List LogRow) (uid : Int) (d : String),
        workout_log_exists logs uid d = true →
        mark_missed_if_no_response logs uid d = logs) ∧
    (∀ (logs : List LogRow) (uid : Int) (d : String),
        workout_log_exists logs uid d = false →
        mark_missed_if_no_response logs uid d = logs ++ [⟨uid, d, "missed"⟩]) ∧
    mark_missed_if_no_response
        (upsert_workout_log [] ⟨1, "2024-01-10T07:00:00", "done"⟩) 1 "2024-01-10T07:00:00"
      = [⟨1, "2024-01-10T07:00:00", "done"⟩] := by
  refine ⟨?_, ?_, by decide⟩
  · intro logs uid d h
    rw [mark_missed_if_no_response, if_pos h]
  · intro logs uid d h
    rw [mark_missed_if_no_response, if_neg (by simp [h]), upsert_workout_log,
      if_neg (by simp [workout_log_exists] at h ⊢; exact h)]

/-- Witness for C6 at concrete logs. -/
theorem mark_missed_noop_witness :
    mark_missed_if_no_response [⟨1, "2024-01-10T07:00:00", "done"⟩] 1 "2024-01-10T07:00:00"
      = [⟨1, "2024-01-10T07:00:00", "done"⟩] ∧
    mark_missed_if_no_response [] 1 "2024-01-10T07:00:00"
      = [] ++ [⟨1, "2024-01-10T07:00:00", "missed"⟩] :=
  ⟨mark_missed_noop.1 [⟨1, "2024-01-10T07:00:00", "done"⟩] 1 "2024-01-10T07:00:00" (by decide),
   mark_missed_noop.2.1 [] 1 "2024-01-10T07:00:00" (by decide)⟩

/-! ## Schedule replacement: db/models.py `ScheduleCreate` validation,
utils/parsing.py `parse_time`, and the delete-then-insert block of
handlers/schedule.py (lines 562-586) -/

/-- A `workout_schedule` row / validated `ScheduleCreate` payload. -/
structure WorkoutScheduleRow where
  user_id : Int
  weekday : Int
  time : String
  week_type : String
deriving DecidableEq, Repr

/-- `f"{n:02d}"` for `n ≤ 99`. -/
def pad2 (n : Nat) : String :=
  if n < 10 then "0" ++ natStr n else natStr n

/-- `parse_time(value)` from utils/parsing.py: strip, split on ":", both
parts decimal digits, hour in 0..23 and minute in 0..59, re-emitted
zero-padded; otherwise `ValueError` (the `Except.error` branch). -/
def parse_time_input (value : String) : Except String String :=
  if value = "" then Except.error "time is empty"
  else match pySplit (pyStrip value) ':' with
    | [hour_str, minute_str] =>
      if pyIsdigit hour_str && pyIsdigit minute_str then
        if strToNat hour_str ≤ 23 && strToNat minute_str ≤ 59 then
          Except.ok (pad2 (strToNat hour_str) ++ ":" ++ pad2 (strToNat minute_str))
        else Except.error "invalid time"
      else Except.error "invalid time"
    | _ => Except.error "invalid time"

/-- `ScheduleCreate.validate_time` from db/models.py (same checks as
`parse_time` but without the strip, and with its own messages). -/
def validate_time_field (value : String) : Except String String :=
  if value = "" then Except.error "time is required"
  else match pySplit value ':' with
    | [hour_str, minute_str] =>
      if pyIsdigit hour_str && pyIsdigit minute_str then
        if strToNat hour_str ≤ 23 && strToNat minute_str ≤ 59 then
          Except.ok (pad2 (strToNat hour_str) ++ ":" ++ pad2 (strToNat minute_str))
        else Except.error "invalid time format"
      else Except.error "invalid time format"
    | _ => Except.error "invalid time format"

/-- `ScheduleCreate.validate_week_type` from db/models.py. -/
def validate_week_type_field (value : String) : Except String String :=
  let normalized := pyLower (pyStrip value)
  if normalized = "any" || normalized = "even" || normalized = "odd" then
    Except.ok normalized
  else Except.error "invalid week_type"

/-- Constructing a `ScheduleCreate(user_id=..., weekday=..., time=...,
week_type=...)`: pydantic validates the `Field(ge=0, le=6)` bound on
`weekday` and runs the two field validators; any failure raises
`ValidationError` (the `Except.error` branch). -/
def scheduleCreate (user_id weekday : Int) (time week_type : String) :
    Except String WorkoutScheduleRow :=
  if weekday < 0 || 6 < weekday then Except.error "weekday out of range"
  else
    match validate_time_field time with
    | Except.error e => Except.error e
    | Except.ok t =>
      match validate_week_type_field week_type with
      | Except.error e => Except.error e
      | Except.ok wt => Except.ok ⟨user_id, weekday, t, wt⟩

/-- `add_workout_schedule` (`INSERT OR IGNORE` under the UNIQUE
`(user_id, weekday, time, week_type)` constraint). -/
def add_workout_schedule (store : List WorkoutScheduleRow) (s : WorkoutScheduleRow) :
    List WorkoutScheduleRow :=
  if store.contains s then store else store ++ [s]

/-- The `[ScheduleCreate(...) for day in days]` list comprehension of
handlers/schedule.py line 581-584: built left to right, the first
`ValidationError` aborts the whole comprehension. -/
def buildSchedules (uid : Int) (days : List Int) (time_str week_type : String) :
    Except String (List WorkoutScheduleRow) :=
  match days with
  | [] => Except.ok []
  | d :: rest =>
    match scheduleCreate uid d time_str week_type with
    | Except.error e => Except.error e
    | Except.ok s =>
      match buildSchedules uid rest time_str week_type with
      | Except.error e => Except.error e
      | Except.ok ss => Except.ok (s :: ss)

/-- The schedule-replacement request flow for an even/odd week-type: the
time text is validated by `parse_time` when entered (handler re-prompts on
error, writing nothing); then the parity callback runs `DELETE FROM
workout_schedule WHERE user_id = ? AND week_type = ?` (committed
immediately by `Database.execute`), builds the `ScheduleCreate` list, and
inserts each row.  The result pairs the final stored schedule with the
error raised, if any. -/
def handleScheduleReplacement (store : List WorkoutScheduleRow) (user_id : Int)
    (days : List Int) (raw_time : String) (week_type : String) :
    List WorkoutScheduleRow × Option String :=
  match parse_time_input raw_time with
  | Except.error e => (store, some e)
  | Except.ok time_str =>
    let deleted := store.filter
      (fun r => !(r.user_id == user_id && r.week_type == week_type))
    match buildSchedules user_id days time_str week_type with
    | Except.error e => (deleted, some e)
    | Except.ok schedules => (schedules.foldl add_workout_schedule deleted, none)

/-- Counterexample to C5 as stated: a replacement request for user 1,
week-type "even", weekday 9 (out of range) and valid time "19:30", against
a store holding one "even" entry, fails with a validation error but leaves
the store changed — the old entry was deleted before validation ran. -/
theorem schedule_replacement_not_atomic :
    (handleScheduleReplacement [⟨1, 2, "07:00", "even"⟩] 1 [9] "19:30" "even").2.isSome
        = true ∧
    (handleScheduleReplacement [⟨1, 2, "07:00", "even"⟩] 1 [9] "19:30" "even").1
      ≠ [⟨1, 2, "07:00", "even"⟩] := by
  decide

/-- Amended C5: a malformed time is rejected by `parse_time` at the input
step, before any write, leaving the stored schedule unchanged; an
out-of-range weekday also fails the whole batch before any insert, but
only after the old `(user, week-type)` entries were deleted, so on that
error the store is left equal to the deleted (filtered) state. -/
theorem schedule_replacement_validation :
    (∀ (store : List WorkoutScheduleRow) (uid : Int) (days : List Int)
        (raw wt e : String),
        parse_time_input raw = Except.error e →
        handleScheduleReplacement store uid days raw wt = (store, some e)) ∧
    (∀ (store : List WorkoutScheduleRow) (uid : Int) (days : List Int)
        (raw wt t e : String),
        parse_time_input raw = Except.ok t →
        buildSchedules uid days t wt = Except.error e →
        handleScheduleReplacement store uid days raw wt
          = (store.filter (fun r => !(r.user_id == uid && r.week_type == wt)),
             some e)) := by
  constructor
  · intro store uid days raw wt e h
    simp only [handleScheduleReplacement, h]
  · intro store uid days raw wt t e h1 h2
    simp only [handleScheduleReplacement, h1, h2]

/-- Witness for the amended C5 at concrete requests: "25:00" is rejected
with the store untouched; weekday 9 errors with the "even" entries
deleted. -/
theorem schedule_replacement_validation_witness :
    handleScheduleReplacement [⟨1, 2, "07:00", "even"⟩] 1 [2] "25:00" "even"
      = ([⟨1, 2, "07:00", "even"⟩], some "invalid time") ∧
    handleScheduleReplacement [⟨1, 2, "07:00", "even"⟩] 1 [9] "19:30" "even"
      = ([(⟨1, 2, "07:00", "even"⟩ : WorkoutScheduleRow)].filter
           (fun r => !(r.user_id == 1 && r.week_type == "even")),
         some "weekday out of range") :=
  ⟨schedule_replacement_validation.1 [⟨1, 2, "07:00", "even"⟩] 1 [2] "25:00" "even"
      "invalid time" rfl,
   schedule_replacement_validation.2 [⟨1, 2, "07:00", "even"⟩] 1 [9] "19:30" "even"
      "19:30" "weekday out of range" rfl rfl⟩

/-! ## Monthly report: services/analytics.py `build_monthly_report` and the
weight queries of db/queries.py

Weight rows live in the `weights` table; the SQL range conditions and
`ORDER BY date` compare `isoformat()` strings, whose lexicographic order on
same-format timestamps coincides with chronological order, modelled by the
total-second key of `PyDateTime`.  SQLite's `ORDER BY` is modelled by an
insertion sort on that key. -/

/-- `datetime.__le__` / ISO-string `<=` in the SQL range conditions. -/
def dtLe (a b : PyDateTime) : Bool := a.key ≤ b.key

/-- A `weights` row. -/
structure WeightRow where
  user_id : Int
  date : PyDateTime
  weight : ℚ
deriving DecidableEq, Repr

/-- Ordered insertion (used to model SQL `ORDER BY`). -/
def insertAsc {α : Type} (le : α → α → Bool) (r : α) : List α → List α
  | [] => [r]
  | x :: xs => if le r x then r :: x :: xs else x :: insertAsc le r xs

/-- Insertion sort (model of SQL `ORDER BY`). -/
def sortBy {α : Type} (le : α → α → Bool) (l : List α) : List α :=
  l.foldr (insertAsc le) []

/-- The `WHERE user_id = ? AND date >= ? AND date <= ?` condition shared by
the three weight range queries. -/
def weightsInRange (rows : List WeightRow) (uid : Int) (start stop : PyDateTime) :
    List WeightRow :=
  rows.filter (fun r => r.user_id == uid && dtLe start r.date && dtLe r.date stop)

/-- `get_weights_between` (`ORDER BY date ASC`). -/
def get_weights_between (rows : List WeightRow) (uid : Int) (start stop : PyDateTime) :
    List WeightRow :=
  sortBy (fun a b => dtLe a.date b.date) (weightsInRange rows uid start stop)

/-- `get_first_weight_between` (`ORDER BY date ASC LIMIT 1`). -/
def get_first_weight_between (rows : List WeightRow) (uid : Int)
    (start stop : PyDateTime) : Option WeightRow :=
  (sortBy (fun a b => dtLe a.date b.date) (weightsInRange rows uid start stop)).head?

/-- `get_last_weight_between` (`ORDER BY date DESC LIMIT 1`). -/
def get_last_weight_between (rows : List WeightRow) (uid : Int)
    (start stop : PyDateTime) : Option WeightRow :=
  (sortBy (fun a b => dtLe b.date a.date) (weightsInRange rows uid start stop)).head?

/-- The `MonthlyReport` dataclass of services/analytics.py. -/
structure MonthlyReport where
  start_weight : Option ℚ
  end_weight : Option ℚ
  diff : Option ℚ
  diff_percent : Option ℚ
  completed : Nat
  missed : Nat
  discipline_score : ℚ
  weights : List (PyDateTime × ℚ)
deriving Repr

/-- `build_monthly_report(db, user_id, start, end, week_parity_offset)`:
the db reads (`get_workout_schedule`, `get_workout_stats`, the weight
queries) are passed in as the schedule rows, the done/missed counts, and
the weight rows; everything downstream of them is the source's own
computation.  `diff = round(end - start, 2)`; `diff_percent =
round(diff / start * 100, 2)` from the rounded `diff`, only when
`start != 0`; both stay `None` unless both endpoint weights exist. -/
def build_monthly_report (schedule : List ScheduleEntryRow) (rows : List WeightRow)
    (stats_done stats_missed : Nat) (user_id : Int) (start stop : PyDateTime)
    (week_parity_offset : Int) : MonthlyReport :=
  let scheduled := count_scheduled_workouts schedule start stop week_parity_offset
  let score := calculate_discipline_score (stats_done : Int) (scheduled : Int)
  let start_weight := (get_first_weight_between rows user_id start stop).map (·.weight)
  let end_weight := (get_last_weight_between rows user_id start stop).map (·.weight)
  let diff : Option ℚ :=
    match start_weight, end_weight with
    | some sw, some ew => some (pyRound2 (ew - sw))
    | _, _ => none
  let diff_percent : Option ℚ :=
    match start_weight, end_weight with
    | some sw, some ew =>
      if sw ≠ 0 then some (pyRound2 (pyRound2 (ew - sw) / sw * 100)) else none
    | _, _ => none
  { start_weight := start_weight
    end_weight := end_weight
    diff := diff
    diff_percent := diff_percent
    completed := stats_done
    missed := stats_missed
    discipline_score := score
    weights := (get_weights_between rows user_id start stop).map (fun r => (r.date, r.weight)) }

theorem insertAsc_perm {α : Type} (le : α → α → Bool) (r : α) (l : List α) :
    List.Perm (insertAsc le r l) (r :: l) := by
  induction l with
  | nil => exact List.Perm.refl _
  | cons x xs ih =>
    rw [insertAsc]
    by_cases h : le r x = true
    · rw [if_pos h]
    · rw [if_neg h]
      exact (List.Perm.cons x ih).trans (List.Perm.swap r x xs)

theorem sortBy_perm {α : Type} (le : α → α → Bool) (l : List α) :
    List.Perm (sortBy le l) l := by
  induction l with
  | nil => exact List.Perm.refl _
  | cons x xs ih =>
    rw [sortBy, List.foldr_cons]
    exact (insertAsc_perm le x _).trans (List.Perm.cons x ih)

theorem pairwise_insertAsc {α : Type} (le : α → α → Bool)
    (htot : ∀ a b, le a b = true ∨ le b a = true)
    (htrans : ∀ a b c, le a b = true → le b c = true → le a c = true)
    (r : α) (l : List α) (hl : List.Pairwise (fun a b => le a b = true) l) :
    List.Pairwise (fun a b => le a b = true) (insertAsc le r l) := by
  induction l with
  | nil => simp [insertAsc]
  | cons x xs ih =>
    rcases List.pairwise_cons.mp hl with ⟨hx, hxs⟩
    rw [insertAsc]
    by_cases h : le r x = true
    · rw [if_pos h]
      refine List.Pairwise.cons ?_ (List.Pairwise.cons hx hxs)
      intro y hy
      rcases List.mem_cons.mp hy with rfl | hy1
      · exact h
      · exact htrans r x y h (hx y hy1)
    · rw [if_neg h]
      have hxr : le x r = true := (htot r x).resolve_left h
      refine List.Pairwise.cons ?_ (ih hxs)
      intro y hy
      have hmem : y = r ∨ y ∈ xs := by
        have := (insertAsc_perm le r xs).mem_iff.mp hy
        simpa using this
      rcases hmem with rfl | hy1
      · exact hxr
      · exact hx y hy1

theorem pairwise_sortBy {α : Type} (le : α → α → Bool)
    (htot : ∀ a b, le a b = true ∨ le b a = true)
    (htrans : ∀ a b c, le a b = true → le b c = true → le a c = true)
    (l : List α) :
    List.Pairwise (fun a b => le a b = true) (sortBy le l) := by
  induction l with
  | nil => simp [sortBy]
  | cons x xs ih =>
    rw [sortBy, List.foldr_cons]
    exact pairwise_insertAsc le htot htrans x _ ih

/-- Claim C8: with weights 80.0 (day 1) and 78.5 (day 20) inside a monthly
range, the report's diff is -1.5 and its diff_percent is
`round(-1.5 / 80 * 100, 2) = -1.88`; in general both are `None` when the
range holds no weight data, and the report's weight points are exactly the
in-range rows ordered by time ascending. -/
theorem build_monthly_report_spec :
    (∀ (schedule : List ScheduleEntryRow) (rows : List WeightRow)
        (done missed : Nat) (uid : Int) (start stop : PyDateTime) (off : Int),
        weightsInRange rows uid start stop = [] →
        (build_monthly_report schedule rows done missed uid start stop off).diff = none ∧
        (build_monthly_report schedule rows done missed uid start stop off).diff_percent
          = none) ∧
    (∀ (schedule : List ScheduleEntryRow) (rows : List WeightRow)
        (done missed : Nat) (uid : Int) (start stop : PyDateTime) (off : Int),
        List.Perm (build_monthly_report schedule rows done missed uid start stop off).weights
          ((weightsInRange rows uid start stop).map (fun r => (r.date, r.weight))) ∧
        List.Pairwise (fun p q => dtLe p.1 q.1 = true)
          (build_monthly_report schedule rows done missed uid start stop off).weights) ∧
    (build_monthly_report []
        [⟨1, ⟨2024, 1, 1, 8, 0, 0⟩, 80⟩, ⟨1, ⟨2024, 1, 20, 8, 0, 0⟩, (78.5 : ℚ)⟩]
        0 0 1 ⟨2024, 1, 1, 0, 0, 0⟩ ⟨2024, 1, 31, 23, 59, 59⟩ 0).diff
      = some (-1.5 : ℚ) ∧
    (build_monthly_report []
        [⟨1, ⟨2024, 1, 1, 8, 0, 0⟩, 80⟩, ⟨1, ⟨2024, 1, 20, 8, 0, 0⟩, (78.5 : ℚ)⟩]
        0 0 1 ⟨2024, 1, 1, 0, 0, 0⟩ ⟨2024, 1, 31, 23, 59, 59⟩ 0).diff_percent
      = some (-1.88 : ℚ) := by
  have hfil : weightsInRange
      [⟨1, ⟨2024, 1, 1, 8, 0, 0⟩, 80⟩, ⟨1, ⟨2024, 1, 20, 8, 0, 0⟩, (78.5 : ℚ)⟩]
      1 ⟨2024, 1, 1, 0, 0, 0⟩ ⟨2024, 1, 31, 23, 59, 59⟩
      = [⟨1, ⟨2024, 1, 1, 8, 0, 0⟩, 80⟩, ⟨1, ⟨2024, 1, 20, 8, 0, 0⟩, (78.5 : ℚ)⟩] := by
    rw [weightsInRange]
    norm_num [List.filter, dtLe, PyDateTime.key, PyDate.ord, PyDateTime.date, ymd2ord,
      daysBeforeYear, daysBeforeMonth, daysInMonth, isLeap]
  refine ⟨?_, ?_, ?_, ?_⟩
  · intro schedule rows done missed uid start stop off h
    constructor <;>
      simp [build_monthly_report, get_first_weight_between, get_last_weight_between,
        h, sortBy]
  · intro schedule rows done missed uid start stop off
    have htot : ∀ a b : WeightRow,
        dtLe a.date b.date = true ∨ dtLe b.date a.date = true := by
      intro a b
      simp only [dtLe, decide_eq_true_eq]
      omega
    have htrans : ∀ a b c : WeightRow, dtLe a.date b.date = true →
        dtLe b.date c.date = true → dtLe a.date c.date = true := by
      intro a b c
      simp only [dtLe, decide_eq_true_eq]
      omega
    constructor
    · simp only [build_monthly_report, get_weights_between]
      exact List.Perm.map _ (sortBy_perm _ _)
    · simp only [build_monthly_report, get_weights_between]
      rw [List.pairwise_map]
      exact pairwise_sortBy _ htot htrans (weightsInRange rows uid start stop)
  · simp only [build_monthly_report, get_first_weight_between, get_last_weight_between, hfil]
    norm_num [sortBy, insertAsc, dtLe, PyDateTime.key, PyDate.ord, ymd2ord,
      daysBeforeYear, daysBeforeMonth, daysInMonth, isLeap, PyDateTime.date,
      pyRound2, roundHalfEven]
  · simp only [build_monthly_report, get_first_weight_between, get_last_weight_between, hfil]
    norm_num [sortBy, insertAsc, dtLe, PyDateTime.key, PyDate.ord, ymd2ord,
      daysBeforeYear, daysBeforeMonth, daysInMonth, isLeap, PyDateTime.date,
      pyRound2, roundHalfEven]

/-- Witness for C8: an empty weight store over a concrete month yields
`None` for both diff fields. -/
theorem build_monthly_report_spec_witness :
    (build_monthly_report [] [] 0 0 1 ⟨2024, 1, 1, 0, 0, 0⟩ ⟨2024, 1, 31, 0, 0, 0⟩ 0).diff
        = none ∧
    (build_monthly_report [] [] 0 0 1 ⟨2024, 1, 1, 0, 0, 0⟩
        ⟨2024, 1, 31, 0, 0, 0⟩ 0).diff_percent = none :=
  build_monthly_report_spec.1 [] [] 0 0 1 ⟨2024, 1, 1, 0, 0, 0⟩
    ⟨2024, 1, 31, 0, 0, 0⟩ 0 rfl

end DisciplineBot
